import Mathlib

/-!
Shallow embedding of the crawl engine of 42trackerv2 (src/crawler/engine.py,
src/crawler/fetcher.py, src/core/database.py), with the theorems settling the
spec claims about the dispatcher, the fetch cache, the aggregator/persister
and the asset worker pool.

Conventions of the embedding:
* Python dict access with `.get` becomes `Option` fields.
* SQLite tables become lists of row structures; `executemany` becomes a fold.
* Network and filesystem collaborators (the rendering worker, `requests`,
  `save_certificate_to_disk`, the page-scraping path of the parser) are
  abstracted as function parameters, since they perform IO.
* Observable effects the claims talk about (URLs actually requested over the
  network, tasks put on the image queue, whether a DB connection was opened)
  are returned explicitly alongside the functional result.
-/

namespace Tracker

/-- `pat` matches the beginning of `s` (character lists). -/
def leadMatch : List Char → List Char → Bool
  | [], _ => true
  | _ :: _, [] => false
  | p :: ps, c :: cs => p == c && leadMatch ps cs

/-- `pat` occurs somewhere in `s` (character lists). -/
def subOccurs (pat : List Char) : List Char → Bool
  | [] => pat.isEmpty
  | c :: rest => leadMatch pat (c :: rest) || subOccurs pat rest

/-- Substring containment test on strings: true when `pat` occurs in `s`
(models the Python operator `pat in s`). -/
def strContains (s pat : String) : Bool :=
  subOccurs pat.data s.data

/-- `s.startswith(pat)` on strings. -/
def startsWithS (s pat : String) : Bool :=
  leadMatch pat.data s.data

/-- ASCII lowercasing of one character (non-ASCII characters, e.g. Korean,
are unchanged, as with `str.lower()` on them). -/
def lowerChar (c : Char) : Char :=
  if 65 <= c.toNat && c.toNat <= 90 then Char.ofNat (c.toNat + 32) else c

/-- `str.lower()` for the ASCII-or-Korean labels and hosts involved. -/
def lowerStr (s : String) : String :=
  String.mk (s.data.map lowerChar)

/-- One replacement pass: replace every non-overlapping occurrence of `pat`
(nonempty) by `rep`, left to right; `fuel` bounds the recursion and is
instantiated with the length of the scanned list, which suffices because
every step consumes at least one character. -/
def replAux (pat rep : List Char) : Nat → List Char → List Char
  | 0, s => s
  | _ + 1, [] => []
  | fuel + 1, c :: rest =>
      if leadMatch pat (c :: rest) then
        rep ++ replAux pat rep fuel (List.drop (pat.length - 1) rest)
      else c :: replAux pat rep fuel rest

/-- Python `s.replace(pat, rep)` for a nonempty `pat` (the engine's
placeholders are all nonempty). -/
def pyReplace (s pat rep : String) : String :=
  if pat.data.isEmpty then s
  else String.mk (replAux pat.data rep.data s.data.length s.data)

/-- Drop characters up to and past the first `://`; none when absent. -/
def dropScheme : List Char → Option (List Char)
  | [] => none
  | ':' :: '/' :: '/' :: rest => some rest
  | _ :: rest => dropScheme rest

/-- Take the host part: characters up to the first `/`, `:`, `?` or `#`. -/
def takeHost : List Char → List Char
  | [] => []
  | c :: rest =>
      if c == '/' || c == ':' || c == '?' || c == '#' then []
      else c :: takeHost rest

/-- Hostname of a URL, models `urllib.parse.urlsplit(url).hostname or ""` for
the `scheme://host/path` URLs the engine builds: the part after `://` up to
the first delimiter; empty when the URL has no `://`. -/
def hostOf (url : String) : String :=
  match dropScheme url.data with
  | some rest => String.mk (takeHost rest)
  | none => ""

/-- Split a character list on one separator character. -/
def splitOnChar (sep : Char) : List Char → List (List Char)
  | [] => [[]]
  | c :: rest =>
      let r := splitOnChar sep rest
      if c == sep then [] :: r
      else
        match r with
        | h :: t => (c :: h) :: t
        | [] => [[c]]

/-- Modelled from the spec: `utils/time_utils.looks_time` is not under `src/`.
A finish time is well-formed when it is `H:MM:SS`, `HH:MM:SS` or `MM:SS`
shaped: two or three colon-separated fields, every field made of digits, the
first one or two digits long, the following ones exactly two digits long.
The empty string and non-time text are malformed. -/
def looks_time (s : String) : Bool :=
  let isNum2 := fun (t : List Char) => t.length == 2 && t.all Char.isDigit
  let isNum12 := fun (t : List Char) =>
    (t.length == 1 || t.length == 2) && t.all Char.isDigit
  match splitOnChar ':' s.data with
  | [a, b] => isNum12 a && isNum2 b
  | [a, b, c] => isNum12 a && isNum2 b && isNum2 c
  | _ => false

/-- Python `str.isdigit()`: nonempty and all characters are digits. -/
def pyIsDigit (s : String) : Bool :=
  s.length != 0 && s.data.all Char.isDigit

/-- Python `str.zfill(6)`: left-pad with zeros to length 6. -/
def zfill6 (s : String) : String :=
  if s.length >= 6 then s
  else String.mk (List.replicate (6 - s.length) '0') ++ s

/-- `CrawlerEngine._build_url` (src/crawler/engine.py:327): substitute the
placeholders of the URL template; a numeric identifier is zero-padded to six
digits for the `{bib_spct6}` placeholder, a non-numeric one is substituted
unchanged. -/
def build_url (template nameorbibno usedata : String) : String :=
  let url := pyReplace template "{nameorbibno}" nameorbibno
  let url := pyReplace url "{usedata}" usedata
  if strContains url "{bib_spct6}" then
    let bib6 := if pyIsDigit nameorbibno then zfill6 nameorbibno else nameorbibno
    pyReplace url "{bib_spct6}" bib6
  else url

/-- One split record as produced by the parser collaborator and consumed by
the engine (the dict shape with keys point_label, point_km, net_time,
pass_clock, pace). -/
structure SplitRec where
  point_label : Option String
  point_km : Option Rat
  net_time : Option String
  pass_clock : Option String
  pace : Option String
deriving Repr, DecidableEq

/-- The per-entity meta of a parse result (race_label / race_total_km). -/
structure Meta where
  race_label : Option String
  race_total_km : Option Rat
deriving Repr, DecidableEq

/-- One asset as listed in a parse result (dict with keys kind, host, url). -/
structure AssetIn where
  kind : Option String
  host : Option String
  url : Option String
deriving Repr, DecidableEq

/-- The unit passed from the dispatcher to the persister: the tuple
`(participant_id, splits, meta, assets)` returned by `_crawl_one`. -/
structure CrawlResult where
  pid : Nat
  splits : List SplitRec
  meta : Meta
  assets : List AssetIn
deriving Repr, DecidableEq

/-- A row of the `participants` table (src/core/database.py:21). -/
structure PRow where
  id : Nat
  marathon_id : Nat
  nameorbibno : String
  active : Bool
  race_label : Option String
  race_total_km : Option Rat
  finish_image_url : Option String
  finish_image_path : Option String
deriving Repr, DecidableEq

/-- A row of the `splits` table (src/core/database.py:35);
UNIQUE(participant_id, point_label). -/
structure SplitRow where
  participant_id : Nat
  point_label : Option String
  point_km : Option Rat
  net_time : Option String
  pass_clock : Option String
  pace : Option String
  seen_at : String
deriving Repr, DecidableEq

/-- A row of the `assets` table (src/core/database.py:47);
UNIQUE(participant_id, kind). -/
structure AssetRow where
  participant_id : Nat
  kind : String
  host : Option String
  url : String
  local_path : Option String
  seen_at : String
deriving Repr, DecidableEq

/-- The persistent store: the three tables the engine writes. -/
structure DB where
  participants : List PRow
  splits : List SplitRow
  assets : List AssetRow
deriving Repr, DecidableEq

/-- A task of the image download queue: the engine's `_image_worker` unpacks
`host, usedata, bib, img_url, referer, pid` (src/crawler/engine.py:482). -/
structure ImgTask where
  host : String
  usedata : String
  bib : String
  img_url : String
  referer : Option String
  pid : Nat
deriving Repr, DecidableEq

/-! ## Fetch cache (src/crawler/fetcher.py) -/

/-- `_CACHE_TTL` (src/crawler/fetcher.py:9). -/
def CACHE_TTL : Nat := 30

/-- Modelled from the spec: `utils/network_utils.add_cache_buster` is not
under `src/`; it appends a cache-busting query parameter (here a timestamp
nonce) to the URL, so the returned URL differs from its argument. -/
def add_cache_buster (url : String) (now : Nat) : String :=
  url ++ (if strContains url "?" then "&_cb=" else "?_cb=") ++ toString now

/-- One entry of the module-level `_CACHE` dict: key, stored content, store
timestamp. -/
structure CacheEntry where
  key : String
  data : String
  ts : Nat
deriving Repr, DecidableEq

/-- `url in _CACHE` followed by `_CACHE[url]`. -/
def cache_lookup (c : List CacheEntry) (k : String) : Option (String × Nat) :=
  match c.find? (fun e => e.key == k) with
  | some e => some (e.data, e.ts)
  | none => none

/-- `_CACHE[url] = (html, now)`: dict assignment replaces any prior binding. -/
def cache_store (c : List CacheEntry) (k d : String) (ts : Nat) : List CacheEntry :=
  ⟨k, d, ts⟩ :: c.filter (fun e => e.key != k)

/-- Result of `fetch`: the content, and the URLs actually requested over the
network (always the cache-busted URL). -/
structure FetchOut where
  content : String
  requested : List String
deriving Repr, DecidableEq

/-- `fetch` (src/crawler/fetcher.py:11): append the cache buster, then route
by host — rendering-worker first for myresult/spct hosts with HTTP fallback
on an empty worker result, plain HTTP for every other host. The rendering
worker and the HTTP session are abstracted as `worker` and `net`. -/
def fetch (worker net : String → String) (now : Nat) (url : String) : FetchOut :=
  let host := lowerStr (hostOf url)
  let url2 := add_cache_buster url now
  if strContains host "myresult.co.kr" || strContains host "spct.co.kr" then
    let html := worker url2
    if html != "" then ⟨html, [url2]⟩
    else ⟨net url2, [url2]⟩
  else ⟨net url2, [url2]⟩

/-- Result of `fetch_cached`: the content, the cache afterwards, and the list
of URLs on which the underlying `fetch` was invoked (empty on a cache hit). -/
structure CachedOut where
  content : String
  cache : List CacheEntry
  invoked : List String
deriving Repr, DecidableEq

/-- `fetch_cached` (src/crawler/fetcher.py:30): look the ORIGINAL url up in
`_CACHE`; on a fresh entry return it, otherwise invoke `fetch url` and store
the result under the original url. -/
def fetch_cached (worker net : String → String) (now : Nat)
    (cache : List CacheEntry) (url : String) : CachedOut :=
  match cache_lookup cache url with
  | some (data, ts) =>
      if now - ts < CACHE_TTL then ⟨data, cache, []⟩
      else
        let f := fetch worker net now url
        ⟨f.content, cache_store cache url f.content now, [url]⟩
  | none =>
      let f := fetch worker net now url
      ⟨f.content, cache_store cache url f.content now, [url]⟩

/-- Modelled from the claim's words, for comparison with `fetch_cached`: a
variant in which the cache-busting parameter is appended BEFORE the cache key
is computed, so the memoization key is the busted (per-distinct-request)
URL. -/
def fetch_cached_claim_keyed (worker net : String → String) (now : Nat)
    (cache : List CacheEntry) (url : String) : CachedOut :=
  let key := add_cache_buster url now
  match cache_lookup cache key with
  | some (data, ts) =>
      if now - ts < CACHE_TTL then ⟨data, cache, []⟩
      else
        let f := fetch worker net now url
        ⟨f.content, cache_store cache key f.content now, [url]⟩
  | none =>
      let f := fetch worker net now url
      ⟨f.content, cache_store cache key f.content now, [url]⟩

/-! ## Aggregator/Persister: `CrawlerEngine._save_results`
(src/crawler/engine.py:353) -/

/-- Python truthiness of an optional string (`a.get("url")` as a condition):
present and nonempty. -/
def truthyS : Option String → Bool
  | some s => s != ""
  | none => false

/-- One entry of `meta_batch`: `(race_label, race_total_km, pid)`
(src/crawler/engine.py:388). -/
abbrev MetaB := Option String × Option Rat × Nat

/-- The `meta_batch` built by `_save_results`: one entry per result that
carries a meta (the meta dict built by `_crawl_one` always has its two keys,
so it is always truthy). `none` results model falsy entries, skipped by
`if not r: continue`. -/
def meta_batch (results : List (Option CrawlResult)) : List MetaB :=
  results.flatMap fun r =>
    match r with
    | some r => [(r.meta.race_label, r.meta.race_total_km, r.pid)]
    | none => []

/-- The `split_batch` built by `_save_results` (src/crawler/engine.py:395):
one row-tuple per split of every result, `seen_at` stamped `now_iso`. -/
def split_batch (results : List (Option CrawlResult)) (now_iso : String) :
    List SplitRow :=
  results.flatMap fun r =>
    match r with
    | some r =>
        r.splits.map fun s =>
          { participant_id := r.pid, point_label := s.point_label,
            point_km := s.point_km, net_time := s.net_time,
            pass_clock := s.pass_clock, pace := s.pace, seen_at := now_iso }
    | none => []

/-- The row `_save_results` appends to `asset_batch` for one asset
(src/crawler/engine.py:407): only assets with a truthy url yield a row
(`if a.get("url")`), the kind defaults to "certificate"
(`a.get("kind") or "certificate"`), local_path is inserted as NULL. -/
def mk_asset_row (pid : Nat) (now_iso : String) (a : AssetIn) : Option AssetRow :=
  if truthyS a.url then
    some { participant_id := pid,
           kind := match a.kind with
                   | some k => if k == "" then "certificate" else k
                   | none => "certificate",
           host := a.host, url := a.url.getD "",
           local_path := none, seen_at := now_iso }
  else none

/-- The `asset_batch` built by `_save_results` (src/crawler/engine.py:407). -/
def asset_batch (results : List (Option CrawlResult)) (now_iso : String) :
    List AssetRow :=
  results.flatMap fun r =>
    match r with
    | some r => r.assets.filterMap (mk_asset_row r.pid now_iso)
    | none => []

/-- COALESCE(new, old): the new value when present, else the old. -/
def coalesce (new old : Option α) : Option α :=
  match new with
  | some v => some v
  | none => old

/-- One `UPDATE participants SET race_label = COALESCE(?, race_label), ...
WHERE id = ?` statement (src/crawler/engine.py:422) applied to one row. -/
def apply_meta_row (b : MetaB) (r : PRow) : PRow :=
  if r.id = b.2.2 then
    { r with race_label := coalesce b.1 r.race_label,
             race_total_km := coalesce b.2.1 r.race_total_km }
  else r

/-- `executemany` over the meta batch. -/
def apply_meta (t : List PRow) (bs : List MetaB) : List PRow :=
  bs.foldl (fun t b => t.map (apply_meta_row b)) t

/-- The conflict key of a splits row: (participant_id, point_label). -/
def splitKey (r : SplitRow) : Nat × Option String :=
  (r.participant_id, r.point_label)

/-- The `DO UPDATE SET net_time, pass_clock, pace, seen_at` column update of
the splits upsert: the conflicting row keeps its point_km and takes the
excluded row's other mutable fields. -/
def upd_split (b r : SplitRow) : SplitRow :=
  { r with net_time := b.net_time, pass_clock := b.pass_clock,
           pace := b.pace, seen_at := b.seen_at }

/-- One `INSERT INTO splits ... ON CONFLICT(participant_id, point_label)
DO UPDATE` statement (src/crawler/engine.py:432): on the (participant_id,
point_label) conflict the existing row is updated via `upd_split`; otherwise
the row is inserted. -/
def upsert_split (t : List SplitRow) (b : SplitRow) : List SplitRow :=
  if t.any (fun r => decide (splitKey r = splitKey b)) then
    t.map fun r => if splitKey r = splitKey b then upd_split b r else r
  else t ++ [b]

/-- `executemany` over the split batch. -/
def apply_splits (t : List SplitRow) (bs : List SplitRow) : List SplitRow :=
  bs.foldl upsert_split t

/-- The conflict key of an assets row: (participant_id, kind). -/
def assetKey (r : AssetRow) : Nat × String :=
  (r.participant_id, r.kind)

/-- One `INSERT INTO assets ... ON CONFLICT(participant_id, kind) DO UPDATE
SET url, host, seen_at` statement (src/crawler/engine.py:446): on conflict
the existing row keeps its local_path and takes the excluded row's url, host
and seen_at; otherwise the row is inserted. -/
def upsert_asset (t : List AssetRow) (b : AssetRow) : List AssetRow :=
  if t.any (fun r => assetKey r == assetKey b) then
    t.map fun r =>
      if assetKey r == assetKey b then
        { r with url := b.url, host := b.host, seen_at := b.seen_at }
      else r
  else t ++ [b]

/-- `executemany` over the asset batch. -/
def apply_assets (t : List AssetRow) (bs : List AssetRow) : List AssetRow :=
  bs.foldl upsert_asset t

/-- Result of `_save_results`: the store afterwards, whether a DB connection
was opened, and the tasks put on `image_queue` during the call. -/
structure SaveOut where
  db : DB
  opened : Bool
  enqueued : List ImgTask
deriving Repr, DecidableEq

/-- `CrawlerEngine._save_results` (src/crawler/engine.py:353): on an empty
result list return at once (no connection, no write); otherwise build the
three batches, open a connection, apply the three `executemany` batches and
commit. The body contains no `image_queue.put` call, so the enqueued-task
list is always empty. The 2- and 3-tuple legacy unpacking branches
(src/crawler/engine.py:377-382) default meta/assets to empty and are not
producible by `_crawl_one`, which always returns 4-tuples; falsy entries are
modelled by `none` and skipped. -/
def save_results (results : List (Option CrawlResult)) (now_iso : String)
    (db : DB) : SaveOut :=
  if results.isEmpty then ⟨db, false, []⟩
  else
    let mb := meta_batch results
    let sb := split_batch results now_iso
    let ab := asset_batch results now_iso
    ⟨{ participants := apply_meta db.participants mb,
       splits := apply_splits db.splits sb,
       assets := apply_assets db.assets ab }, true, []⟩

/-! ## Asset worker: `CrawlerEngine._image_worker`
(src/crawler/engine.py:472) -/

/-- One loop iteration of `_image_worker` on a non-sentinel task:
`save_certificate_to_disk` is abstracted as the oracle `saveCert` (it
performs network and filesystem IO); on a returned path the worker runs
`UPDATE participants SET finish_image_path=? WHERE id=?` and commits; on
`none` (failed store or a swallowed exception) nothing is written. The
`assets` and `splits` tables are not touched. -/
def image_worker_step (saveCert : ImgTask → Option String) (db : DB)
    (task : ImgTask) : DB :=
  match saveCert task with
  | some p =>
      { db with participants := db.participants.map fun r =>
          if r.id = task.pid then { r with finish_image_path := some p } else r }
  | none => db

/-! ## MyResult JSON enrichment: `CrawlerEngine._handle_myresult_json`
(src/crawler/engine.py:267) -/

/-- The parse-result dict shape the enrichment works on (`splits`,
`race_label`, `race_total_km`, `assets` keys of the parser output). -/
structure ParseData where
  splits : List SplitRec
  race_label : Option String
  race_total_km : Option Rat
  assets : List AssetIn
deriving Repr, DecidableEq

/-- `has_finish` (src/crawler/engine.py:283): some split whose
`point_label or ""` lowercases to exactly "finish". -/
def mrHasFinish (d : ParseData) : Bool :=
  d.splits.any fun r => lowerStr (r.point_label.getD "") == "finish"

/-- The synthesized Finish split appended by the enrichment
(src/crawler/engine.py:312): label "Finish", no distance, net time `total`,
pass clock `finish_clock`, empty pace. -/
def mrFinishRow (total finish_clock : String) : SplitRec :=
  { point_label := some "Finish", point_km := none, net_time := some total,
    pass_clock := some finish_clock, pace := some "" }

/-- `CrawlerEngine._handle_myresult_json` (src/crawler/engine.py:267),
returning the (possibly enriched) data and whether the rendering-worker
re-fetch was attempted. `workerFetch` abstracts `get_mr_worker().fetch`
(IO); `scrape` abstracts the BeautifulSoup page-scraping of the rendered
page (`extract_total_net_time` and the arrival-clock row scan, from the
parsers package not under `src/`), yielding `(total, finish_clock)`. An
`Except.error` of either oracle models a raised exception; the whole
try-body swallows it and keeps the existing data. -/
def handle_myresult_json (workerFetch : String → Except Unit String)
    (scrape : String → Except Unit (String × String))
    (url host : String) (data : ParseData) : ParseData × Bool :=
  if !(strContains (lowerStr host) "myresult.co.kr") then (data, false)
  else if mrHasFinish data then (data, false)
  else
    match workerFetch url with
    | .error _ => (data, true)
    | .ok html2 =>
        if html2 == "" || startsWithS html2 "JSON::" then (data, true)
        else
          match scrape html2 with
          | .error _ => (data, true)
          | .ok (total, finish_clock) =>
              if looks_time total then
                ({ data with
                   splits := data.splits ++ [mrFinishRow total finish_clock] },
                 true)
              else (data, true)

/-! ## Dispatcher: `CrawlerEngine._crawl_participants`
(src/crawler/engine.py:168) -/

/-- A row of the `marathons` table as the dispatcher uses it. -/
structure Marathon where
  id : Nat
  url_template : String
  usedata : Option String
  refresh_sec : Nat
deriving Repr, DecidableEq

/-- A participant row as the dispatcher uses it (the query already filtered
`active=1`). -/
structure Participant where
  id : Nat
  nameorbibno : String
deriving Repr, DecidableEq

/-- The URL the dispatcher builds for a participant
(src/crawler/engine.py:199). -/
def participant_url (m : Marathon) (p : Participant) : String :=
  build_url m.url_template p.nameorbibno (m.usedata.getD "")

/-- Whether a participant's URL routes to the serial (MyResult) lane
(src/crawler/engine.py:203). -/
def isMyresultHost (m : Marathon) (p : Participant) : Bool :=
  strContains (lowerStr (hostOf (participant_url m p))) "myresult.co.kr"

/-- Collect one lane's results (src/crawler/engine.py:214 and 223): each
unit's outcome is taken if it is a truthy tuple; a raised exception
(`Except.error`) is caught and logged, the unit contributes nothing and its
siblings are unaffected. -/
def collect_lane (crawl : Nat → String → Except String (Option CrawlResult))
    (jobs : List (Nat × String)) : List CrawlResult :=
  jobs.filterMap fun j =>
    match crawl j.1 j.2 with
    | .ok (some r) => some r
    | .ok none => none
    | .error _ => none

/-- `CrawlerEngine._crawl_participants` (src/crawler/engine.py:168): keep the
participants the scheduler's rate limiter admits (`canFetch` abstracts
`can_fetch_participant`; the scheduler module is not under `src/`), build
the URLs, partition into the parallel lane and the serial MyResult lane,
collect the parallel results then the serial ones, every per-unit failure
caught. `crawl` abstracts the fetch+parse of `_crawl_one` (network IO);
the parallel lane is modelled in list order (one deterministic completion
schedule of `as_completed`). -/
def crawl_participants (canFetch : Nat → Bool)
    (crawl : Nat → String → Except String (Option CrawlResult))
    (m : Marathon) (ps : List Participant) : List CrawlResult :=
  let eligible := ps.filter fun p => canFetch p.id
  let parallel := (eligible.filter (fun p => !isMyresultHost m p)).map
    fun p => (p.id, participant_url m p)
  let serial := (eligible.filter (fun p => isMyresultHost m p)).map
    fun p => (p.id, participant_url m p)
  collect_lane crawl parallel ++ collect_lane crawl serial

/-! ## Helper lemmas -/

theorem map_eq_of_fun_eq {α β : Type} (f g : α → β) (l : List α)
    (h : ∀ a, f a = g a) : l.map f = l.map g := by
  have : f = g := funext h
  rw [this]

theorem meta_row_label_of_none (b : MetaB) (hb : b.1 = none) (q : PRow) :
    (apply_meta_row b q).race_label = q.race_label := by
  unfold apply_meta_row
  split <;> simp [coalesce, hb]

theorem meta_row_km_of_none (b : MetaB) (hb : b.2.1 = none) (q : PRow) :
    (apply_meta_row b q).race_total_km = q.race_total_km := by
  unfold apply_meta_row
  split <;> simp [coalesce, hb]

/-! ## Claim theorems -/

/-- C10: calling `_save_results` with an empty results list is a no-op: it
opens no database connection, performs no write and leaves every table
unchanged. -/
theorem C10_save_empty_noop (now_iso : String) (db : DB) :
    save_results [] now_iso db = ⟨db, false, []⟩ := rfl

/-- The concrete store for the C1 evaluation: one participant, no splits, no
assets yet. -/
def c1db : DB := ⟨[⟨1, 1, "42", true, none, none, none, none⟩], [], []⟩

/-- A normalized result whose asset newly carries a remote URL. -/
def c1res : CrawlResult :=
  ⟨1, [], ⟨none, none⟩,
   [⟨some "certificate", some "example.com", some "http://example.com/c.jpg"⟩]⟩

/-- C1: the claim says an asset that newly carries a remote URL is enqueued
to the asset worker pool after the transaction commits. Evaluating
`_save_results` at such a batch: the transaction commits (a connection is
opened, the new asset row is written), yet nothing is ever put on
`image_queue` — the function body contains no enqueue at all
(src/crawler/engine.py:353-457), while `_image_worker`
(src/crawler/engine.py:472) waits for tasks that are never produced. -/
theorem C1_save_enqueues_nothing :
    (save_results [some c1res] "t0" c1db).enqueued = [] ∧
    (save_results [some c1res] "t0" c1db).opened = true ∧
    (save_results [some c1res] "t0" c1db).db.assets =
      [⟨1, "certificate", some "example.com", "http://example.com/c.jpg",
        none, "t0"⟩] := by
  refine ⟨rfl, rfl, ?_⟩
  decide

/-- C8: for every entity meta update performed by `_save_results`, an absent
(None) new value never overwrites a stored value: when the incoming
race_label (resp. race_total_km) is None, the whole stored column is left
unchanged (COALESCE keeps the existing value). -/
theorem C8_meta_coalescing (db : DB) (r : CrawlResult) (now : String) :
    (r.meta.race_label = none →
      (save_results [some r] now db).db.participants.map (fun q => q.race_label)
        = db.participants.map (fun q => q.race_label)) ∧
    (r.meta.race_total_km = none →
      (save_results [some r] now db).db.participants.map
          (fun q => q.race_total_km)
        = db.participants.map (fun q => q.race_total_km)) := by
  constructor
  · intro h
    simp only [save_results, List.isEmpty_cons, Bool.false_eq_true, if_false,
      meta_batch, List.flatMap_cons, List.flatMap_nil, List.append_nil,
      apply_meta, List.foldl_cons, List.foldl_nil, List.map_map]
    exact map_eq_of_fun_eq _ _ _ fun q =>
      meta_row_label_of_none (r.meta.race_label, r.meta.race_total_km, r.pid) h q
  · intro h
    simp only [save_results, List.isEmpty_cons, Bool.false_eq_true, if_false,
      meta_batch, List.flatMap_cons, List.flatMap_nil, List.append_nil,
      apply_meta, List.foldl_cons, List.foldl_nil, List.map_map]
    exact map_eq_of_fun_eq _ _ _ fun q =>
      meta_row_km_of_none (r.meta.race_label, r.meta.race_total_km, r.pid) h q

/-- C8 witness: a participant stored with label "10K" keeps it after a
persist with both meta fields None. -/
theorem C8_witness :
    ((⟨1, [], ⟨none, none⟩, []⟩ : CrawlResult).meta.race_label = none →
      (save_results [some ⟨1, [], ⟨none, none⟩, []⟩] "t1"
          ⟨[⟨1, 1, "42", true, some "10K", some 10, none, none⟩], [],
           []⟩).db.participants.map (fun q => q.race_label)
        = [⟨1, 1, "42", true, some "10K", some 10, none, none⟩].map
            (fun (q : PRow) => q.race_label)) ∧
    ((⟨1, [], ⟨none, none⟩, []⟩ : CrawlResult).meta.race_total_km = none →
      (save_results [some ⟨1, [], ⟨none, none⟩, []⟩] "t1"
          ⟨[⟨1, 1, "42", true, some "10K", some 10, none, none⟩], [],
           []⟩).db.participants.map (fun q => q.race_total_km)
        = [⟨1, 1, "42", true, some "10K", some 10, none, none⟩].map
            (fun (q : PRow) => q.race_total_km)) :=
  C8_meta_coalescing ⟨[⟨1, 1, "42", true, some "10K", some 10, none, none⟩], [], []⟩
    ⟨1, [], ⟨none, none⟩, []⟩ "t1"

theorem length_filterMap_eq_length_filter {α β : Type} (f : α → Option β)
    (l : List α) :
    (l.filterMap f).length = (l.filter (fun a => (f a).isSome)).length := by
  induction l with
  | nil => rfl
  | cons a t ih =>
    cases h : f a <;>
      simp [List.filterMap_cons, h, List.filter_cons, ih]

theorem mk_asset_row_some (pid : Nat) (now : String) (a : AssetIn)
    (row : AssetRow) (h : mk_asset_row pid now a = some row) :
    row.url ≠ "" ∧ row.kind ≠ "" := by
  unfold mk_asset_row at h
  split at h
  case isTrue ht =>
    injection h with h
    subst h
    refine ⟨?_, ?_⟩
    · cases hu : a.url with
      | none => rw [hu] at ht; simp [truthyS] at ht
      | some s =>
        rw [hu] at ht
        simp only [truthyS, bne_iff_ne, ne_eq] at ht
        simpa [hu] using ht
    · cases hk : a.kind with
      | none => simp [hk]
      | some k =>
        simp only [hk]
        split
        · simp
        · rename_i hke
          simpa using hke
  case isFalse => exact absurd h (by simp)

theorem mk_asset_row_isSome (pid : Nat) (now : String) (a : AssetIn) :
    (mk_asset_row pid now a).isSome = truthyS a.url := by
  unfold mk_asset_row
  split <;> simp_all

/-- C9: an asset entry reaches the assets batch only when it carries a truthy
remote URL (missing or empty urls are dropped, one row per truthy asset), a
missing or empty kind defaults to "certificate", and therefore every row of
the batch has a non-empty url and a non-empty kind at insert time. -/
theorem C9_asset_batch_invariant (results : List (Option CrawlResult))
    (now : String) :
    (∀ row ∈ asset_batch results now, row.url ≠ "" ∧ row.kind ≠ "") ∧
    (∀ cr : CrawlResult,
      (asset_batch [some cr] now).length
        = (cr.assets.filter (fun a => truthyS a.url)).length) := by
  constructor
  · intro row hrow
    rw [asset_batch, List.mem_flatMap] at hrow
    obtain ⟨r, hr, hrow⟩ := hrow
    match r with
    | none => simp at hrow
    | some cr =>
      simp only [List.mem_filterMap] at hrow
      obtain ⟨a, _, hmk⟩ := hrow
      exact mk_asset_row_some cr.pid now a row hmk
  · intro cr
    simp only [asset_batch, List.flatMap_cons, List.flatMap_nil,
      List.append_nil]
    rw [length_filterMap_eq_length_filter]
    congr 1
    exact List.filter_congr fun a _ => mk_asset_row_isSome cr.pid now a

/-- C9 witness: a batch with one truthy-url asset (kind missing) and one
url-less asset yields exactly one row, with url and kind non-empty. -/
theorem C9_witness :
    (∀ row ∈ asset_batch
        [some ⟨7, [], ⟨none, none⟩,
          [⟨none, some "example.com", some "http://example.com/a.png"⟩,
           ⟨some "certificate", some "example.com", none⟩]⟩] "t2",
      row.url ≠ "" ∧ row.kind ≠ "") ∧
    (∀ cr : CrawlResult,
      (asset_batch [some cr] "t2").length
        = (cr.assets.filter (fun a => truthyS a.url)).length) :=
  C9_asset_batch_invariant
    [some ⟨7, [], ⟨none, none⟩,
      [⟨none, some "example.com", some "http://example.com/a.png"⟩,
       ⟨some "certificate", some "example.com", none⟩]⟩] "t2"

theorem add_cache_buster_ne (url : String) (now : Nat) :
    add_cache_buster url now ≠ url := by
  unfold add_cache_buster
  intro h
  have hl := congrArg String.length h
  rw [String.length_append, String.length_append] at hl
  split at hl
  · have h5 : ("&_cb=" : String).length = 5 := rfl
    rw [h5] at hl; omega
  · have h5 : ("?_cb=" : String).length = 5 := rfl
    rw [h5] at hl; omega

/-- The fixture URL, network and rendering worker for the C2 evaluation. -/
def c2url : String := "http://example.com/a"

def c2net : String → String := fun _ => "PAGE"

def c2worker : String → String := fun _ => ""

/-- C2: the claim says the cache buster is appended BEFORE the cache key is
computed, making the memoization key per-distinct-request. Counterexample on
the code: after a first call at t=0 the stored key is the original (unbusted)
URL; a second call at t=10, within the TTL and with a different buster, hits
the cache and invokes no underlying fetch — whereas the per-distinct-request
keyed variant written from the claim's words misses and fetches again. -/
theorem C2_counterexample_key_unbusted :
    (fetch_cached c2worker c2net 0 [] c2url).cache = [⟨c2url, "PAGE", 0⟩] ∧
    add_cache_buster c2url 0 ≠ c2url ∧
    (fetch_cached c2worker c2net 10
        (fetch_cached c2worker c2net 0 [] c2url).cache c2url).invoked = [] ∧
    (fetch_cached_claim_keyed c2worker c2net 10
        (fetch_cached c2worker c2net 0 [] c2url).cache c2url).invoked
      = [c2url] := by
  refine ⟨by decide, ?_, by decide, by decide⟩
  decide

/-- C2 amended: in `fetch_cached` the memoization key is the ORIGINAL url
(per-logical-resource): a fresh cache entry under that url is returned with
no underlying fetch, a miss invokes `fetch` exactly once and stores the
result under the original url, and the cache buster is appended only inside
`fetch`, so every network request carries the busted URL, which differs from
the key. -/
theorem C2_cache_key_per_logical_resource (worker net : String → String)
    (now : Nat) (cache : List CacheEntry) (url : String) :
    (∀ data ts, cache_lookup cache url = some (data, ts) →
        now - ts < CACHE_TTL →
        fetch_cached worker net now cache url = ⟨data, cache, []⟩) ∧
    (cache_lookup cache url = none →
        fetch_cached worker net now cache url =
          ⟨(fetch worker net now url).content,
           cache_store cache url (fetch worker net now url).content now,
           [url]⟩) ∧
    (fetch worker net now url).requested = [add_cache_buster url now] ∧
    add_cache_buster url now ≠ url := by
  refine ⟨?_, ?_, ?_, add_cache_buster_ne url now⟩
  · intro data ts hl hf
    unfold fetch_cached
    rw [hl]
    simp [hf]
  · intro hl
    unfold fetch_cached
    rw [hl]
  · unfold fetch
    dsimp only
    split
    · split <;> rfl
    · rfl

/-- C2 witness: the amended theorem evaluated at the fixture. -/
theorem C2_witness :
    (∀ data ts, cache_lookup [⟨c2url, "PAGE", 0⟩] c2url = some (data, ts) →
        10 - ts < CACHE_TTL →
        fetch_cached c2worker c2net 10 [⟨c2url, "PAGE", 0⟩] c2url
          = ⟨data, [⟨c2url, "PAGE", 0⟩], []⟩) ∧
    (cache_lookup [⟨c2url, "PAGE", 0⟩] c2url = none →
        fetch_cached c2worker c2net 10 [⟨c2url, "PAGE", 0⟩] c2url =
          ⟨(fetch c2worker c2net 10 c2url).content,
           cache_store [⟨c2url, "PAGE", 0⟩] c2url
             (fetch c2worker c2net 10 c2url).content 10, [c2url]⟩) ∧
    (fetch c2worker c2net 10 c2url).requested = [add_cache_buster c2url 10] ∧
    add_cache_buster c2url 10 ≠ c2url :=
  C2_cache_key_per_logical_resource c2worker c2net 10 [⟨c2url, "PAGE", 0⟩] c2url

/-- The fixture store, task and storage oracle for the C3 evaluation: the
store already holds the (entity 1, "certificate") assets row with a null
local path, and the download succeeds with a concrete local path. -/
def c3db : DB :=
  ⟨[⟨1, 1, "42", true, none, none, none, none⟩], [],
   [⟨1, "certificate", some "img.example.com",
     "http://img.example.com/c.jpg", none, "t0"⟩]⟩

def c3task : ImgTask :=
  ⟨"img.example.com", "d1", "42", "http://img.example.com/c.jpg", none, 1⟩

def c3store : ImgTask → Option String := fun _ => some "/static/certs/1.jpg"

/-- C3: the claim says a successful download persists the local path onto the
entity's assets row. Counterexample on the code: after a successful worker
iteration the assets table is untouched (the row's local_path is still NULL);
the path was written to the participant row's finish_image_path instead
(src/crawler/engine.py:493 updates `participants`, not `assets`). -/
theorem C3_counterexample_assets_untouched :
    (image_worker_step c3store c3db c3task).assets = c3db.assets ∧
    (image_worker_step c3store c3db c3task).assets.map (fun r => r.local_path)
      = [none] ∧
    (image_worker_step c3store c3db c3task).participants.map
        (fun r => r.finish_image_path)
      = [some "/static/certs/1.jpg"] := by
  refine ⟨rfl, by decide, by decide⟩

/-- C3 amended: on a successful download-and-store the worker writes the
returned local path onto the owning PARTICIPANT row's finish_image_path
column; the assets and splits tables are left unchanged (the assets row's
local_path stays as it was), and a failed store writes nothing. -/
theorem C3_path_on_participant_row (saveCert : ImgTask → Option String)
    (db : DB) (task : ImgTask) :
    (∀ p, saveCert task = some p →
        image_worker_step saveCert db task =
          ⟨db.participants.map (fun r =>
              if r.id = task.pid then { r with finish_image_path := some p }
              else r),
           db.splits, db.assets⟩) ∧
    (saveCert task = none → image_worker_step saveCert db task = db) := by
  constructor
  · intro p h
    simp [image_worker_step, h]
  · intro h
    simp [image_worker_step, h]

/-- C3 witness: the amended theorem evaluated at the fixture. -/
theorem C3_witness :
    (∀ p, c3store c3task = some p →
        image_worker_step c3store c3db c3task =
          ⟨c3db.participants.map (fun r =>
              if r.id = c3task.pid then { r with finish_image_path := some p }
              else r),
           c3db.splits, c3db.assets⟩) ∧
    (c3store c3task = none → image_worker_step c3store c3db c3task = c3db) :=
  C3_path_on_participant_row c3store c3db c3task

/-- The fixture for the C4 evaluation: a parse result whose only checkpoint
is labelled "완주" (the Korean finish label), a rendering worker returning a
rendered page and a scrape yielding a well-formed finish time. -/
def c4data : ParseData :=
  ⟨[⟨some "완주", none, some "1:45:30", some "10:30:00", some ""⟩],
   none, none, []⟩

def c4wf : String → Except Unit String := fun _ => .ok "<html>rendered</html>"

def c4scrape : String → Except Unit (String × String) :=
  fun _ => .ok ("1:45:30", "10:30:00")

/-- C4: the claim says the enrichment re-fetch happens iff no checkpoint is
labelled "Finish" OR "완주". Counterexample on the code: `has_finish`
(src/crawler/engine.py:283) compares the lowercased label to the English
"finish" only, so a result whose only checkpoint is "완주" still triggers the
rendering-worker re-fetch and is changed (a second finish row is appended),
contradicting "when such a label is already present, the result is returned
unchanged without the re-fetch". -/
theorem C4_counterexample_korean_label :
    (handle_myresult_json c4wf c4scrape "http://myresult.co.kr/r"
        "myresult.co.kr" c4data).2 = true ∧
    (handle_myresult_json c4wf c4scrape "http://myresult.co.kr/r"
        "myresult.co.kr" c4data).1 ≠ c4data := by
  exact ⟨by decide, by decide⟩

/-- C4 amended: for a MyResult-hosted JSON result the rendering-worker
re-fetch is performed if and only if no checkpoint label lowercases to the
ENGLISH "finish" (a "완주" label neither counts nor suppresses the re-fetch);
when such an English finish label is present the result is returned
unchanged without the re-fetch. -/
theorem C4_refetch_iff_no_english_finish (wf : String → Except Unit String)
    (sc : String → Except Unit (String × String)) (url host : String)
    (data : ParseData)
    (hhost : strContains (lowerStr host) "myresult.co.kr" = true) :
    ((handle_myresult_json wf sc url host data).2 = !(mrHasFinish data)) ∧
    (mrHasFinish data = true →
      handle_myresult_json wf sc url host data = (data, false)) := by
  constructor
  · cases hfin : mrHasFinish data
    · cases hwf : wf url with
      | error e => simp [handle_myresult_json, hhost, hfin, hwf]
      | ok h2 =>
        simp only [handle_myresult_json, hhost, Bool.not_true,
          Bool.false_eq_true, if_false, hfin, hwf, Bool.not_false]
        split
        · rfl
        · cases hsc : sc h2 with
          | error e => simp [hsc]
          | ok p =>
            obtain ⟨total, clock⟩ := p
            simp only [hsc]
            split <;> rfl
    · simp [handle_myresult_json, hhost, hfin]
  · intro hfin
    simp [handle_myresult_json, hhost, hfin]

/-- C4 witness: the amended theorem at a MyResult host. -/
theorem C4_witness :
    strContains (lowerStr "myresult.co.kr") "myresult.co.kr" = true ∧
    (((handle_myresult_json c4wf c4scrape "http://myresult.co.kr/r"
          "myresult.co.kr" c4data).2 = !(mrHasFinish c4data)) ∧
     (mrHasFinish c4data = true →
        handle_myresult_json c4wf c4scrape "http://myresult.co.kr/r"
          "myresult.co.kr" c4data = (c4data, false))) :=
  ⟨by decide,
   C4_refetch_iff_no_english_finish c4wf c4scrape "http://myresult.co.kr/r"
     "myresult.co.kr" c4data (by decide)⟩

/-- C5: in the JSON-enrichment step a synthesized "Finish" checkpoint — label
"Finish", no distance, empty pace (the unset values the code writes) — is
appended exactly when the extracted finish time is well-formed; a malformed
or empty time appends nothing and leaves the result unchanged, and a raised
exception anywhere in the enrichment (worker fetch or page scrape) is
swallowed with the unenriched result still returned. -/
theorem C5_enrichment_guarded (wf : String → Except Unit String)
    (sc : String → Except Unit (String × String)) (url host : String)
    (data : ParseData)
    (hhost : strContains (lowerStr host) "myresult.co.kr" = true)
    (hnof : mrHasFinish data = false) :
    (∀ h2 total clock, wf url = .ok h2 →
        (h2 == "" || startsWithS h2 "JSON::") = false →
        sc h2 = .ok (total, clock) →
        (looks_time total = true →
          (handle_myresult_json wf sc url host data).1
            = { data with splits := data.splits ++ [mrFinishRow total clock] }) ∧
        (looks_time total = false →
          (handle_myresult_json wf sc url host data).1 = data)) ∧
    (∀ e, wf url = .error e →
        (handle_myresult_json wf sc url host data).1 = data) ∧
    (∀ h2 e, wf url = .ok h2 → sc h2 = .error e →
        (handle_myresult_json wf sc url host data).1 = data) ∧
    (∀ total clock, (mrFinishRow total clock).point_label = some "Finish" ∧
        (mrFinishRow total clock).point_km = none ∧
        (mrFinishRow total clock).pace = some "") ∧
    looks_time "" = false := by
  refine ⟨?_, ?_, ?_, fun total clock => ⟨rfl, rfl, rfl⟩, by decide⟩
  · intro h2 total clock hwf hguard hsc
    constructor
    · intro hlt
      simp [handle_myresult_json, hhost, hnof, hwf, hguard, hsc, hlt]
    · intro hlt
      simp [handle_myresult_json, hhost, hnof, hwf, hguard, hsc, hlt]
  · intro e hwf
    simp [handle_myresult_json, hhost, hnof, hwf]
  · intro h2 e hwf hsc
    by_cases hguard : (h2 == "" || startsWithS h2 "JSON::") = true
    · simp [handle_myresult_json, hhost, hnof, hwf, hguard]
    · have hguard2 : (h2 == "" || startsWithS h2 "JSON::") = false := by
        revert hguard
        cases h2 == "" || startsWithS h2 "JSON::" <;> simp
      simp [handle_myresult_json, hhost, hnof, hwf, hsc, hguard2]

/-- Fixtures for the C5 evaluation: an empty JSON-derived result (no finish),
a worker returning a rendered page, a scrape returning a well-formed time. -/
def c5wf : String → Except Unit String := fun _ => .ok "<p>rendered</p>"

def c5sc : String → Except Unit (String × String) :=
  fun _ => .ok ("1:45:30", "10:30:00")

def c5data : ParseData := ⟨[], none, none, []⟩

/-- C5 witness: the enrichment theorem at the fixture. -/
theorem C5_witness :
    strContains (lowerStr "myresult.co.kr") "myresult.co.kr" = true ∧
    mrHasFinish c5data = false ∧
    ((∀ h2 total clock, c5wf "u" = .ok h2 →
        (h2 == "" || startsWithS h2 "JSON::") = false →
        c5sc h2 = .ok (total, clock) →
        (looks_time total = true →
          (handle_myresult_json c5wf c5sc "u" "myresult.co.kr" c5data).1
            = { c5data with
                splits := c5data.splits ++ [mrFinishRow total clock] }) ∧
        (looks_time total = false →
          (handle_myresult_json c5wf c5sc "u" "myresult.co.kr" c5data).1
            = c5data)) ∧
     (∀ e, c5wf "u" = .error e →
        (handle_myresult_json c5wf c5sc "u" "myresult.co.kr" c5data).1
          = c5data) ∧
     (∀ h2 e, c5wf "u" = .ok h2 → c5sc h2 = .error e →
        (handle_myresult_json c5wf c5sc "u" "myresult.co.kr" c5data).1
          = c5data) ∧
     (∀ total clock, (mrFinishRow total clock).point_label = some "Finish" ∧
        (mrFinishRow total clock).point_km = none ∧
        (mrFinishRow total clock).pace = some "") ∧
     looks_time "" = false) :=
  ⟨by decide, by decide,
   C5_enrichment_guarded c5wf c5sc "u" "myresult.co.kr" c5data
     (by decide) (by decide)⟩

/-! ## C6 infrastructure -/

deriving instance DecidableEq for Except

/-- The per-unit outcome as the collection loops see it: a result only when
the unit neither raised nor returned a falsy value. -/
def unit_result (crawl : Nat → String → Except String (Option CrawlResult))
    (m : Marathon) (p : Participant) : Option CrawlResult :=
  match crawl p.id (participant_url m p) with
  | .ok (some r) => some r
  | .ok none => none
  | .error _ => none

theorem collect_lane_map (crawl : Nat → String → Except String (Option CrawlResult))
    (m : Marathon) (l : List Participant) :
    collect_lane crawl (l.map fun p => (p.id, participant_url m p))
      = l.filterMap (unit_result crawl m) := by
  unfold collect_lane unit_result
  rw [List.filterMap_map]
  rfl

theorem length_filter_split {α : Type} (P Q : α → Bool) (l : List α) :
    (l.filter fun a => P a && Q a).length
      + (l.filter fun a => P a && !Q a).length
      = (l.filter P).length := by
  induction l with
  | nil => rfl
  | cons a t ih =>
    cases hP : P a <;> cases hQ : Q a <;>
      simp [List.filter_cons, hP, hQ] <;> omega

theorem length_filter_pos_neg {α : Type} (p : α → Bool) (l : List α) :
    (l.filter p).length + (l.filter fun a => !p a).length = l.length := by
  induction l with
  | nil => rfl
  | cons a t ih =>
    cases hp : p a <;> simp [List.filter_cons, hp] <;> omega

/-- C6: when exactly one of the admitted units raises during its crawl and
every other unit yields a result, the dispatcher (a total function — it never
raises outward) returns exactly the other N−1 normalized results: the failing
unit is excluded and each sibling's result is in the list. -/
theorem C6_failure_isolated (canFetch : Nat → Bool)
    (crawl : Nat → String → Except String (Option CrawlResult))
    (m : Marathon) (ps : List Participant) (badId : Nat) (errMsg : String)
    (res : Nat → CrawlResult)
    (hcan : ∀ p ∈ ps, canFetch p.id = true)
    (hone : (ps.filter fun p => p.id == badId).length = 1)
    (hbad : ∀ p ∈ ps, p.id = badId →
        crawl p.id (participant_url m p) = .error errMsg)
    (hok : ∀ p ∈ ps, p.id ≠ badId →
        crawl p.id (participant_url m p) = .ok (some (res p.id))) :
    (crawl_participants canFetch crawl m ps).length = ps.length - 1 ∧
    ∀ p ∈ ps, p.id ≠ badId →
      res p.id ∈ crawl_participants canFetch crawl m ps := by
  have hfil : ps.filter (fun p => canFetch p.id) = ps :=
    List.filter_eq_self.mpr hcan
  have hsome : ∀ p ∈ ps, (unit_result crawl m p).isSome = !(p.id == badId) := by
    intro p hp
    by_cases hid : p.id = badId
    · have h := hbad p hp hid
      unfold unit_result
      rw [h]
      simp [hid]
    · have h := hok p hp hid
      unfold unit_result
      rw [h]
      simp [hid]
  constructor
  · simp only [crawl_participants, hfil, List.length_append, collect_lane_map]
    rw [length_filterMap_eq_length_filter, length_filterMap_eq_length_filter]
    have hA : (ps.filter fun p => !isMyresultHost m p).filter
          (fun p => (unit_result crawl m p).isSome)
        = (ps.filter fun p => !isMyresultHost m p).filter
          (fun p => !(p.id == badId)) :=
      List.filter_congr fun p hp => hsome p (List.mem_of_mem_filter hp)
    have hB : (ps.filter fun p => isMyresultHost m p).filter
          (fun p => (unit_result crawl m p).isSome)
        = (ps.filter fun p => isMyresultHost m p).filter
          (fun p => !(p.id == badId)) :=
      List.filter_congr fun p hp => hsome p (List.mem_of_mem_filter hp)
    rw [hA, hB, List.filter_filter, List.filter_filter]
    have hsum := length_filter_split (fun p => !(p.id == badId))
      (fun p => !isMyresultHost m p) ps
    have hpn := length_filter_pos_neg (fun p => (p.id == badId)) ps
    have hnn : (ps.filter fun p => (!(p.id == badId)) && !(!isMyresultHost m p))
        = ps.filter fun p => (!(p.id == badId)) && isMyresultHost m p := by
      apply List.filter_congr
      intro p _
      rw [Bool.not_not]
    rw [hnn] at hsum
    omega
  · intro p hp hid
    have hu : unit_result crawl m p = some (res p.id) := by
      unfold unit_result
      rw [hok p hp hid]
    simp only [crawl_participants, hfil, collect_lane_map]
    by_cases hmr : isMyresultHost m p = true
    · apply List.mem_append_right
      exact List.mem_filterMap.mpr
        ⟨p, List.mem_filter.mpr ⟨hp, hmr⟩, hu⟩
    · apply List.mem_append_left
      refine List.mem_filterMap.mpr ⟨p, List.mem_filter.mpr ⟨hp, ?_⟩, hu⟩
      simp [hmr]

/-- Fixtures for the C6 evaluation: five participants, unit 3 raising. -/
def c6m : Marathon := ⟨1, "http://example.com/r?bib={nameorbibno}", some "D", 60⟩

def c6ps : List Participant :=
  [⟨1, "11"⟩, ⟨2, "12"⟩, ⟨3, "13"⟩, ⟨4, "14"⟩, ⟨5, "15"⟩]

def c6crawl : Nat → String → Except String (Option CrawlResult) :=
  fun pid _ =>
    if pid == 3 then .error "boom"
    else .ok (some ⟨pid, [], ⟨none, none⟩, []⟩)

def c6res : Nat → CrawlResult := fun pid => ⟨pid, [], ⟨none, none⟩, []⟩

/-- C6 witness: five units, unit 3 raises, four results survive. -/
theorem C6_witness :
    (∀ p ∈ c6ps, (fun (_ : Nat) => true) p.id = true) ∧
    (c6ps.filter fun p => p.id == 3).length = 1 ∧
    (∀ p ∈ c6ps, p.id = 3 →
      c6crawl p.id (participant_url c6m p) = .error "boom") ∧
    (∀ p ∈ c6ps, p.id ≠ 3 →
      c6crawl p.id (participant_url c6m p) = .ok (some (c6res p.id))) ∧
    ((crawl_participants (fun _ => true) c6crawl c6m c6ps).length
        = c6ps.length - 1 ∧
     ∀ p ∈ c6ps, p.id ≠ 3 →
       c6res p.id ∈ crawl_participants (fun _ => true) c6crawl c6m c6ps) :=
  ⟨by decide, by decide, by decide, by decide,
   C6_failure_isolated (fun _ => true) c6crawl c6m c6ps 3 "boom" c6res
     (by decide) (by decide) (by decide) (by decide)⟩

/-! ## C7 infrastructure -/

/-- The splits table satisfies its UNIQUE(participant_id, point_label)
constraint: pairwise distinct conflict keys. -/
def UniqS (t : List SplitRow) : Prop :=
  t.Pairwise fun a b => splitKey a ≠ splitKey b

/-- The rows of the table holding a given conflict key. -/
def rowsAt (t : List SplitRow) (k : Nat × Option String) : List SplitRow :=
  t.filter fun r => decide (splitKey r = k)

/-- The mutable columns of a row agree with a batch entry. -/
def matchVals (r b : SplitRow) : Prop :=
  r.net_time = b.net_time ∧ r.pass_clock = b.pass_clock ∧
  r.pace = b.pace ∧ r.seen_at = b.seen_at

theorem splitKey_upd (b r : SplitRow) :
    splitKey (upd_split b r) = splitKey r := rfl

theorem rowsAt_le_one (t : List SplitRow) (k : Nat × Option String)
    (ht : UniqS t) : (rowsAt t k).length ≤ 1 := by
  induction t with
  | nil => simp [rowsAt]
  | cons a t ih =>
    unfold UniqS at ht
    rw [List.pairwise_cons] at ht
    obtain ⟨ha, ht⟩ := ht
    unfold rowsAt at *
    rw [List.filter_cons]
    by_cases hk : splitKey a = k
    · have hnil : t.filter (fun r => decide (splitKey r = k)) = [] := by
        apply List.filter_eq_nil_iff.mpr
        intro r hr
        simp only [decide_eq_true_eq]
        intro hco
        exact ha r hr (by rw [hk, hco])
      simp [hk, hnil]
    · simpa [hk] using ih ht

theorem rowsAt_map_upd_other (t : List SplitRow) (b : SplitRow)
    (k : Nat × Option String) (hk : k ≠ splitKey b) :
    rowsAt (t.map fun r => if splitKey r = splitKey b then upd_split b r else r) k
      = rowsAt t k := by
  induction t with
  | nil => rfl
  | cons r rest ih =>
    unfold rowsAt at *
    rw [List.map_cons, List.filter_cons, List.filter_cons]
    by_cases hrb : splitKey r = splitKey b
    · have hrk : (splitKey r = k) = False := by
        simp only [eq_iff_iff, iff_false]
        intro hco
        exact hk (by rw [← hco, hrb])
      have hbk : (splitKey b = k) = False :=
        eq_false fun hco => hk hco.symm
      simp [hrb, splitKey_upd, hrk, hbk, ih]
    · simp only [hrb, if_false]
      by_cases hrk : splitKey r = k <;> simp [hrk, ih]

theorem rowsAt_map_upd_self (t : List SplitRow) (b : SplitRow) :
    rowsAt (t.map fun r => if splitKey r = splitKey b then upd_split b r else r)
        (splitKey b)
      = (rowsAt t (splitKey b)).map (upd_split b) := by
  induction t with
  | nil => rfl
  | cons r rest ih =>
    unfold rowsAt at *
    rw [List.map_cons, List.filter_cons, List.filter_cons]
    by_cases hrb : splitKey r = splitKey b
    · simp [hrb, splitKey_upd, ih]
    · simp [hrb, ih]

theorem rowsAt_upsert_other (t : List SplitRow) (b : SplitRow)
    (k : Nat × Option String) (hk : k ≠ splitKey b) :
    rowsAt (upsert_split t b) k = rowsAt t k := by
  unfold upsert_split
  split
  · exact rowsAt_map_upd_other t b k hk
  · unfold rowsAt
    rw [List.filter_append]
    have hb : (decide (splitKey b = k)) = false := by
      simp only [decide_eq_false_iff_not]
      intro hco
      exact hk hco.symm
    simp [List.filter_cons, hb]

theorem rowsAt_upsert_self (t : List SplitRow) (b : SplitRow) (ht : UniqS t) :
    ∃ r, rowsAt (upsert_split t b) (splitKey b) = [r] ∧ matchVals r b := by
  by_cases hany : t.any (fun r => decide (splitKey r = splitKey b)) = true
  · rw [upsert_split, if_pos hany, rowsAt_map_upd_self]
    have hle := rowsAt_le_one t (splitKey b) ht
    obtain ⟨r0, hr0t, hr0k⟩ := List.any_eq_true.mp hany
    have hmem : r0 ∈ rowsAt t (splitKey b) :=
      List.mem_filter.mpr ⟨hr0t, hr0k⟩
    match hrows : rowsAt t (splitKey b) with
    | [] => rw [hrows] at hmem; cases hmem
    | r1 :: rest =>
      rw [hrows] at hle
      cases rest with
      | cons x xs => simp at hle
      | nil =>
        exact ⟨upd_split b r1, rfl, ⟨rfl, rfl, rfl, rfl⟩⟩
  · rw [upsert_split, if_neg hany]
    have hnone : ∀ r ∈ t, ¬(splitKey r = splitKey b) := by
      intro r hr hco
      exact hany (List.any_eq_true.mpr ⟨r, hr, by simpa using hco⟩)
    refine ⟨b, ?_, ⟨rfl, rfl, rfl, rfl⟩⟩
    unfold rowsAt
    rw [List.filter_append]
    have h1 : t.filter (fun r => decide (splitKey r = splitKey b)) = [] :=
      List.filter_eq_nil_iff.mpr (by simpa using hnone)
    simp [h1, List.filter_cons]

theorem uniq_upsert (t : List SplitRow) (b : SplitRow) (ht : UniqS t) :
    UniqS (upsert_split t b) := by
  by_cases hany : t.any (fun r => decide (splitKey r = splitKey b)) = true
  · rw [upsert_split, if_pos hany]
    unfold UniqS at *
    refine List.Pairwise.map _ ?_ ht
    intro x y hxy
    have kx : splitKey (if splitKey x = splitKey b then upd_split b x else x)
        = splitKey x := by split <;> rfl
    have ky : splitKey (if splitKey y = splitKey b then upd_split b y else y)
        = splitKey y := by split <;> rfl
    rw [kx, ky]
    exact hxy
  · rw [upsert_split, if_neg hany]
    unfold UniqS at *
    rw [List.pairwise_append]
    refine ⟨ht, List.pairwise_singleton _ _, ?_⟩
    intro x hx y hy
    rw [List.mem_singleton] at hy
    subst hy
    intro hco
    exact hany (List.any_eq_true.mpr ⟨x, hx, by simpa using hco⟩)

theorem rowsAt_apply_other (t : List SplitRow) (bs : List SplitRow)
    (k : Nat × Option String) (h : ∀ b ∈ bs, splitKey b ≠ k) :
    rowsAt (apply_splits t bs) k = rowsAt t k := by
  induction bs generalizing t with
  | nil => rfl
  | cons b rest ih =>
    simp only [apply_splits, List.foldl_cons] at *
    rw [ih (upsert_split t b) fun b' hb' => h b' (List.mem_cons_of_mem _ hb')]
    exact rowsAt_upsert_other t b k fun he =>
      h b (List.mem_cons_self _ _) he.symm

theorem apply_splits_spec (bs : List SplitRow) (t : List SplitRow)
    (ht : UniqS t) (hnd : (bs.map splitKey).Nodup) :
    UniqS (apply_splits t bs) ∧
    ∀ b ∈ bs, ∃ r, rowsAt (apply_splits t bs) (splitKey b) = [r]
        ∧ matchVals r b := by
  induction bs generalizing t with
  | nil => exact ⟨ht, by intro b hb; cases hb⟩
  | cons b rest ih =>
    have ht' := uniq_upsert t b ht
    rw [List.map_cons, List.nodup_cons] at hnd
    obtain ⟨hnotin, hndrest⟩ := hnd
    obtain ⟨huniq, hall⟩ := ih (upsert_split t b) ht' hndrest
    constructor
    · simpa only [apply_splits, List.foldl_cons] using huniq
    · intro b' hb'
      rcases List.mem_cons.mp hb' with hbb | hbrest
      · subst hbb
        have hkeys : ∀ b'' ∈ rest, splitKey b'' ≠ splitKey b' := by
          intro b'' hb'' hco
          exact hnotin (by rw [← hco]; exact List.mem_map_of_mem _ hb'')
        have hrw := rowsAt_apply_other (upsert_split t b') rest (splitKey b')
          hkeys
        obtain ⟨r, hr, hv⟩ := rowsAt_upsert_self t b' ht
        refine ⟨r, ?_, hv⟩
        simpa only [apply_splits, List.foldl_cons] using hrw.trans hr
      · obtain ⟨r, hr, hv⟩ := hall b' hbrest
        refine ⟨r, ?_, hv⟩
        simpa only [apply_splits, List.foldl_cons] using hr

theorem split_batch_keys (results : List (Option CrawlResult))
    (n1 n2 : String) :
    (split_batch results n1).map splitKey
      = (split_batch results n2).map splitKey := by
  induction results with
  | nil => rfl
  | cons r rest ih =>
    unfold split_batch at *
    rw [List.flatMap_cons, List.flatMap_cons, List.map_append,
      List.map_append, ih]
    congr 1
    cases r with
    | none => rfl
    | some cr =>
      rw [List.map_map, List.map_map]
      apply map_eq_of_fun_eq
      intro s
      rfl

/-- C7: applying the same checkpoint batch through save twice (stamped now1
then now2) leaves, for every batch entry, exactly one splits row for its
(entity, label) key, holding the latest values (the entry's net_time,
pass_clock, pace and the second stamp) — the later observation overwrites
the earlier rather than appending a duplicate row — and the
UNIQUE(participant_id, point_label) invariant is preserved. -/
theorem C7_checkpoint_upsert_idempotent (db : DB)
    (results : List (Option CrawlResult)) (now1 now2 : String)
    (ht : UniqS db.splits)
    (hnd : ((split_batch results now2).map splitKey).Nodup) :
    UniqS ((save_results results now2
        (save_results results now1 db).db).db.splits) ∧
    ∀ b ∈ split_batch results now2,
      (rowsAt ((save_results results now2
          (save_results results now1 db).db).db.splits)
          (splitKey b)).length = 1 ∧
      ∀ r ∈ (save_results results now2
          (save_results results now1 db).db).db.splits,
        splitKey r = splitKey b → matchVals r b := by
  by_cases hemp : results.isEmpty = true
  · have hres : results = [] := by
      cases results with
      | nil => rfl
      | cons a t => simp [List.isEmpty] at hemp
    subst hres
    refine ⟨by simpa [save_results] using ht, ?_⟩
    intro b hb
    simp [split_batch] at hb
  · have hsave : ∀ (d : DB) (n : String),
        (save_results results n d).db.splits
          = apply_splits d.splits (split_batch results n) := by
      intro d n
      simp [save_results, hemp]
    have hnd1 : ((split_batch results now1).map splitKey).Nodup := by
      rw [split_batch_keys results now1 now2]
      exact hnd
    obtain ⟨ht1, _⟩ :=
      apply_splits_spec (split_batch results now1) db.splits ht hnd1
    obtain ⟨ht2, hall⟩ :=
      apply_splits_spec (split_batch results now2)
        (apply_splits db.splits (split_batch results now1)) ht1 hnd
    rw [hsave ((save_results results now1 db).db) now2, hsave db now1]
    refine ⟨ht2, ?_⟩
    intro b hb
    obtain ⟨r, hr, hv⟩ := hall b hb
    constructor
    · rw [hr]
      rfl
    · intro r' hr' hkey
      have hmem : r' ∈ rowsAt
          (apply_splits (apply_splits db.splits (split_batch results now1))
            (split_batch results now2)) (splitKey b) :=
        List.mem_filter.mpr ⟨hr', by simpa using hkey⟩
      rw [hr, List.mem_singleton] at hmem
      rw [hmem]
      exact hv

/-- Fixtures for the C7 evaluation: an empty store and one result carrying
two checkpoints with distinct labels. -/
def c7db : DB := ⟨[], [], []⟩

def c7res : List (Option CrawlResult) :=
  [some ⟨1,
    [⟨some "10K", some 10, some "0:50:00", some "09:50:00", some "5:00"⟩,
     ⟨some "Finish", some 21, some "1:45:30", some "10:45:30", some "5:01"⟩],
    ⟨some "Half", some 21⟩, []⟩]

/-- C7 witness: saving the fixture batch twice leaves one row per label with
the latest values. -/
theorem C7_witness :
    UniqS c7db.splits ∧
    ((split_batch c7res "t2").map splitKey).Nodup ∧
    (UniqS ((save_results c7res "t2"
        (save_results c7res "t1" c7db).db).db.splits) ∧
     ∀ b ∈ split_batch c7res "t2",
       (rowsAt ((save_results c7res "t2"
           (save_results c7res "t1" c7db).db).db.splits)
           (splitKey b)).length = 1 ∧
       ∀ r ∈ (save_results c7res "t2"
           (save_results c7res "t1" c7db).db).db.splits,
         splitKey r = splitKey b → matchVals r b) :=
  ⟨List.Pairwise.nil, by decide,
   C7_checkpoint_upsert_idempotent c7db c7res "t1" "t2"
     List.Pairwise.nil (by decide)⟩

end Tracker
